import Mathlib

/-!
Verification of the eth-keyring-controller design against its declared
interface (`index.d.ts`).  The package ships type declarations only, so the
operational behaviour of each method is modelled from the accompanying design
specification (vault lifecycle, keyring orchestration, app-key derivation) and
every theorem below is stated over that model.
-/

namespace KeyringController

/-- Modelled from the spec: case-insensitive address comparison is performed
throughout the controller; we model lowercasing a string as lowercasing its
character list (the `.d.ts` file declares no implementation for it). -/
def lowerChars (s : String) : List Char := s.data.map Char.toLower

/-- Modelled from the spec: a live keyring — a stable `type` identifier, the
ordered list of addresses it manages, and its opaque internal key material
(abstracted as a natural number). -/
structure Keyring where
  type : String
  accounts : List String
  keyMaterial : Nat
deriving DecidableEq, Repr

/-- Modelled from the spec: the serialized (persistable) form of a keyring. -/
structure SerializedKeyring where
  type : String
  accounts : List String
  keyMaterial : Nat
deriving DecidableEq, Repr

/-- Modelled from the spec: the error taxonomy of §7. -/
inductive Err where
  | AuthenticationError
  | InvalidSeedError
  | UnknownKeyringTypeError
  | DuplicateAccountError
  | NoKeyringFoundError
  | UnsupportedOperationError
  | IOError
  | SerializationError
deriving DecidableEq, Repr

/-- Modelled from the spec: the lock state of the orchestrator. -/
inductive LockState where
  | Locked
  | Unlocked
deriving DecidableEq, Repr

/-- Modelled from the spec: the persisted vault bundle
`{version, salt, iv, ciphertext}`; the authentication check of the codec is
modelled by a `tag` derived from the password and salt, and the ciphertext
carries the encrypted payload abstractly. -/
structure VaultBundle where
  version : Nat
  salt : Nat
  iv : Nat
  ciphertext : List SerializedKeyring
  tag : Nat
deriving DecidableEq, Repr

/-- Injective encoding of a character list into a natural number, used to
model the password-derived key and the app-key derivation as injective
one-way functions (the spec requires distinct inputs to yield distinct
outputs). -/
def charListEncode : List Char → Nat
  | [] => 0
  | c :: t => Nat.pair c.toNat (charListEncode t) + 1

/-- Injective encoding of a string into a natural number. -/
def strEncode (s : String) : Nat := charListEncode s.data

/-- Modelled from the spec: the password-based key-derivation function of the
VaultCodec, abstracted as an injective function of password and salt. -/
def kdf (password : String) (salt : Nat) : Nat := Nat.pair (strEncode password) salt

/-- Modelled from the spec: `encrypt(serializedKeyrings, password)` of the
VaultCodec; salt and iv are supplied by the environment (fresh randomness). -/
def encrypt (serializedKeyrings : List SerializedKeyring) (password : String)
    (salt iv : Nat) : VaultBundle :=
  { version := 1
    salt := salt
    iv := iv
    ciphertext := serializedKeyrings
    tag := kdf password salt }

/-- Modelled from the spec: `decrypt(ciphertextBundle, password)` of the
VaultCodec; re-derives the key from the stored salt and fails with the single
`AuthenticationError` when the authentication check fails. -/
def decrypt (bundle : VaultBundle) (password : String) :
    Except Err (List SerializedKeyring) :=
  if kdf password bundle.salt = bundle.tag then Except.ok bundle.ciphertext
  else Except.error Err.AuthenticationError

/-- The stable type identifier of the HD-wallet keyring. -/
def hdKeyTreeType : String := "HD Key Tree"

/-- The stable type identifier of the simple-key-pair keyring. -/
def simpleKeyPairType : String := "Simple Key Pair"

/-- Modelled from the spec: the KeyringRegistry knows exactly the registered
type identifiers. -/
def knownType (t : String) : Bool := t == hdKeyTreeType || t == simpleKeyPairType

/-- Modelled from the spec: `serialize` of a keyring records its type,
accounts and key material. -/
def serializeKeyring (k : Keyring) : SerializedKeyring :=
  ⟨k.type, k.accounts, k.keyMaterial⟩

/-- Modelled from the spec: the registry deserializer; returns `none` for an
unregistered type (`classFor` returns none, letting the caller decide). -/
def deserializeKeyring (sk : SerializedKeyring) : Option Keyring :=
  if knownType sk.type then some ⟨sk.type, sk.accounts, sk.keyMaterial⟩ else none

/-- Modelled from the spec: the standard address-from-key rule, abstracted as
an injective map from key material to an address string. -/
def addrOfKey (n : Nat) : String := "0x" ++ String.mk (List.replicate n 'a')

/-- Modelled from the spec: `deriveAppKey(baseKeyMaterial, address, origin)`
of the AppKeyDeriver — a deterministic keyed one-way function with `address`
and `origin` as domain-separating inputs, modelled injectively because the
spec requires different origins to yield different keys. -/
def deriveAppKey (baseKeyMaterial : Nat) (address origin : String) : Nat :=
  Nat.pair baseKeyMaterial (Nat.pair (strEncode address) (strEncode origin))

/-- Modelled from the spec: `addressFor(derivedKeyMaterial)` of the
AppKeyDeriver. -/
def addressFor (derivedKeyMaterial : Nat) : String := addrOfKey derivedKeyMaterial

/-- Modelled from the spec: the in-memory orchestrator state — persisted
vault, lock state, remembered password, live keyrings, and any app-key
material cached during capability calls. -/
structure KCState where
  vault : Option VaultBundle
  lock : LockState
  password : Option String
  keyrings : List Keyring
  appKeyCache : List (String × String × Nat)
deriving DecidableEq, Repr

/-- Modelled from the spec: the environment of one call — whether the
PersistenceGateway write fails, and the fresh randomness (HD seed, salt, iv)
drawn during the call. -/
structure Env where
  ioFails : Bool
  seed : Nat
  salt : Nat
  iv : Nat
deriving DecidableEq, Repr

/-- Modelled from the spec: a PersistenceGateway write of the freshly
encrypted vault; fails with `IOError` when the gateway fails, otherwise
returns the bundle that was written. -/
def tryPersist (env : Env) (keyrings : List Keyring) (password : String) :
    Except Err VaultBundle :=
  if env.ioFails then Except.error Err.IOError
  else Except.ok (encrypt (keyrings.map serializeKeyring) password env.salt env.iv)

/-- Modelled from the spec: a freshly created HD keyring with one account. -/
def newHDKeyring (seed : Nat) : Keyring :=
  { type := hdKeyTreeType
    accounts := [ addrOfKey (Nat.pair seed 0)]
    keyMaterial := seed }

/-- Modelled from the spec: the registry factory — instantiates a keyring of
the given registered type from its constructor options. -/
def newKeyringOfType (t : String) (opts : Nat) : Option Keyring :=
  if t = hdKeyTreeType then some (newHDKeyring opts)
  else if t = simpleKeyPairType then
    some { type := simpleKeyPairType
           accounts := [ addrOfKey opts]
           keyMaterial := opts }
  else none

/-- Modelled from the spec: `getAccounts()` concatenates the accounts of all
keyrings (reduce-with-concat over the keyring list). -/
def getAccounts (s : KCState) : List String :=
  s.keyrings.foldl (fun res k => res ++ k.accounts) []

/-- Modelled from the spec: whether a keyring manages an address, compared
case-insensitively. -/
def managesAddress (k : Keyring) (address : String) : Bool :=
  k.accounts.any (fun a => lowerChars a == lowerChars address)

/-- Modelled from the spec: `getKeyringForAccount(address)` — case-insensitive
address match across keyrings, resolving to `none` when not found. -/
def getKeyringForAccount (s : KCState) (address : String) : Option Keyring :=
  s.keyrings.find? (fun k => managesAddress k address)

/-- Modelled from the spec: `checkForDuplicate(type, newAccountArray)` —
compares the first candidate address (case-insensitively) against every
address already managed; only meaningful for the simple-key-pair type. -/
def checkForDuplicate (s : KCState) (t : String) (newAccountArray : List String) :
    Except Err (List String) :=
  if t = simpleKeyPairType then
    match newAccountArray.head? with
    | some a =>
        if (getAccounts s).any (fun m => lowerChars m == lowerChars a) then
          Except.error Err.DuplicateAccountError
        else Except.ok newAccountArray
    | none => Except.ok newAccountArray
  else Except.ok newAccountArray

/-- Modelled from the spec: 12-word seed-phrase validity (BIP39 word count,
abstracted as a word count over space separators). -/
def validSeedPhrase (seedPhrase : String) : Bool :=
  (seedPhrase.data.filter (fun c => c == ' ')).length + 1 == 12

/-- Modelled from the spec: `createNewVaultAndKeychain(password)` — destroys
any existing vault, creates one HD keyring with one account, persists, and
transitions to Unlocked; persistence failure is fatal to the call and leaves
the state as it was. -/
def createNewVaultAndKeychain (env : Env) (s : KCState) (password : String) :
    KCState × Except Err Unit :=
  let newKeyrings := [newHDKeyring env.seed]
  match tryPersist env newKeyrings password with
  | Except.error e => (s, Except.error e)
  | Except.ok b =>
      ({ vault := some b
         lock := LockState.Unlocked
         password := some password
         keyrings := newKeyrings
         appKeyCache := [] }, Except.ok ())

/-- Modelled from the spec: `createNewVaultAndRestore(password, seedPhrase)` —
as above but the HD keyring is seeded from the provided phrase;
`InvalidSeedError` on a malformed phrase. -/
def createNewVaultAndRestore (env : Env) (s : KCState)
    (password seedPhrase : String) : KCState × Except Err Unit :=
  if validSeedPhrase seedPhrase then
    let newKeyrings := [newHDKeyring (strEncode seedPhrase)]
    match tryPersist env newKeyrings password with
    | Except.error e => (s, Except.error e)
    | Except.ok b =>
        ({ vault := some b
           lock := LockState.Unlocked
           password := some password
           keyrings := newKeyrings
           appKeyCache := [] }, Except.ok ())
  else (s, Except.error Err.InvalidSeedError)

/-- Modelled from the spec: reconstruction of every keyring from the decrypted
vault via the registry; one malformed record aborts the whole restore. -/
def restoreKeyrings (sks : List SerializedKeyring) : Option (List Keyring) :=
  sks.mapM deserializeKeyring

/-- Modelled from the spec: `submitPassword(password)` — decrypts the vault,
reconstructs each keyring, transitions to Unlocked; `AuthenticationError` on a
bad password with the state left Locked, and a restore failure aborts the
entire unlock. -/
def submitPassword (s : KCState) (password : String) : KCState × Except Err Unit :=
  match s.vault with
  | none => (s, Except.error Err.AuthenticationError)
  | some b =>
      match decrypt b password with
      | Except.error e => (s, Except.error e)
      | Except.ok sks =>
          match restoreKeyrings sks with
          | none => (s, Except.error Err.SerializationError)
          | some krs =>
              ({ s with
                  lock := LockState.Unlocked
                  password := some password
                  keyrings := krs }, Except.ok ())

/-- Modelled from the spec: `setLocked()` — unconditional; clears all
decrypted keyring instances, the remembered password and all cached app-key
material, and transitions to Locked. -/
def setLocked (s : KCState) : KCState :=
  { vault := s.vault
    lock := LockState.Locked
    password := none
    keyrings := []
    appKeyCache := [] }

/-- Modelled from the spec: `addNewKeyring(type, opts)` — instantiates the
keyring, rejects duplicates, appends it, persists; any failure leaves the
state as it was. -/
def addNewKeyring (env : Env) (s : KCState) (t : String) (opts : Nat) :
    KCState × Except Err Unit :=
  match newKeyringOfType t opts with
  | none => (s, Except.error Err.UnknownKeyringTypeError)
  | some kr =>
      match checkForDuplicate s t kr.accounts with
      | Except.error e => (s, Except.error e)
      | Except.ok _ =>
          let newKeyrings := s.keyrings ++ [kr]
          match tryPersist env newKeyrings (s.password.getD "") with
          | Except.error e => (s, Except.error e)
          | Except.ok b =>
              ({ s with keyrings := newKeyrings, vault := some b }, Except.ok ())

/-- Modelled from the spec: `addNewAccount(selectedKeyring)` — asks the
selected keyring (here by position) to generate its next account, persists;
persistence failure leaves the state as it was. -/
def addNewAccount (env : Env) (s : KCState) (idx : Nat) :
    KCState × Except Err Unit :=
  match s.keyrings[idx]? with
  | none => (s, Except.error Err.NoKeyringFoundError)
  | some k =>
      let k₂ := { k with
        accounts := k.accounts ++ [ addrOfKey (Nat.pair k.keyMaterial k.accounts.length)] }
      let newKeyrings := s.keyrings.set idx k₂
      match tryPersist env newKeyrings (s.password.getD "") with
      | Except.error e => (s, Except.error e)
      | Except.ok b =>
          ({ s with keyrings := newKeyrings, vault := some b }, Except.ok ())

/-- Modelled from the spec: removing an address from one keyring
(case-insensitively). -/
def removeAccountFromKeyring (k : Keyring) (address : String) : Keyring :=
  { k with accounts := k.accounts.filter (fun a => !(lowerChars a == lowerChars address)) }

/-- Modelled from the spec: the owning keyring (the first case-insensitive
match) drops the address; all other keyrings are untouched. -/
def removeAddressFromOwner : List Keyring → String → List Keyring
  | [], _ => []
  | k :: rest, address =>
      if managesAddress k address then removeAccountFromKeyring k address :: rest
      else k :: removeAddressFromOwner rest address

/-- Modelled from the spec: `removeEmptyKeyrings()` — drops every keyring
whose account list became empty. -/
def removeEmptyKeyrings (keyrings : List Keyring) : List Keyring :=
  keyrings.filter (fun k => !k.accounts.isEmpty)

/-- Modelled from the spec: `removeAccount(address)` — removes the address
from its owning keyring, prunes empty keyrings as part of the same effect,
persists; `NoKeyringFoundError` when unmanaged, and persistence failure
leaves the state as it was. -/
def removeAccount (env : Env) (s : KCState) (address : String) :
    KCState × Except Err Unit :=
  match getKeyringForAccount s address with
  | none => (s, Except.error Err.NoKeyringFoundError)
  | some _ =>
      let newKeyrings := removeEmptyKeyrings (removeAddressFromOwner s.keyrings address)
      match tryPersist env newKeyrings (s.password.getD "") with
      | Except.error e => (s, Except.error e)
      | Except.ok b =>
          ({ s with keyrings := newKeyrings, vault := some b }, Except.ok ())

/-- Modelled from the spec: `persistAllKeyrings(password)` — serializes every
keyring, encrypts, writes through the PersistenceGateway, resolving to `true`
once persisted; a gateway failure leaves the state as it was. -/
def persistAllKeyrings (env : Env) (s : KCState) (password : String) :
    KCState × Except Err Bool :=
  match tryPersist env s.keyrings password with
  | Except.error e => (s, Except.error e)
  | Except.ok b =>
      ({ s with vault := some b, password := some password }, Except.ok true)

/-- Modelled from the spec: `getAppKeyAddress(address, origin)` — derives the
app key from the owning keyring's base key material and returns its address;
`NoKeyringFoundError` when the address is unmanaged. -/
def getAppKeyAddress (s : KCState) (address origin : String) : Except Err String :=
  match getKeyringForAccount s address with
  | none => Except.error Err.NoKeyringFoundError
  | some k => Except.ok (addressFor (deriveAppKey k.keyMaterial address origin))

/-- Modelled from the spec: `exportAppKeyForAddress(address, origin)` — as
above but returns the raw derived key, caching the derived app-key material
in the controller state. -/
def exportAppKeyForAddress (s : KCState) (address origin : String) :
    KCState × Except Err Nat :=
  match getKeyringForAccount s address with
  | none => (s, Except.error Err.NoKeyringFoundError)
  | some k =>
      let derived := deriveAppKey k.keyMaterial address origin
      ({ s with appKeyCache := s.appKeyCache ++ [(address, origin, derived)] },
       Except.ok derived)

/-- Modelled from the spec: `stripHexPrefix(address)` strips the leading
`0x`, if present (declared in `index.d.ts` without an implementation). -/
def stripHexPrefix (address : String) : String :=
  if address.data.take 2 = ['0', 'x'] then String.mk (address.data.drop 2)
  else address

/-! ## Injectivity of the modelled one-way functions -/

theorem charListEncode_inj {l₁ l₂ : List Char}
    (h : charListEncode l₁ = charListEncode l₂) : l₁ = l₂ := by
  induction l₁ generalizing l₂ with
  | nil =>
    cases l₂ with
    | nil => rfl
    | cons c t => simp [charListEncode] at h
  | cons c t ih =>
    cases l₂ with
    | nil => simp [charListEncode] at h
    | cons c₂ t₂ =>
      simp only [charListEncode, add_left_inj, Nat.pair_eq_pair] at h
      have hcc : c = c₂ := Char.eq_of_val_eq (UInt32.ext h.1)
      subst hcc
      rw [ih h.2]

theorem strEncode_inj {s t : String} (h : strEncode s = strEncode t) : s = t := by
  cases s with
  | mk ds =>
    cases t with
    | mk dt =>
      have hd : ds = dt := charListEncode_inj h
      rw [hd]

theorem kdf_inj {p q : String} {salt : Nat} (h : kdf p salt = kdf q salt) : p = q :=
  strEncode_inj (Nat.pair_eq_pair.mp h).1

theorem addrOfKey_inj {m n : Nat} (h : addrOfKey m = addrOfKey n) : m = n := by
  have hl := congrArg String.length h
  simpa [addrOfKey, String.length] using hl

/-! ## List-level helper lemmas -/

theorem foldl_append_accounts (l : List Keyring) (init : List String) :
    l.foldl (fun res k => res ++ k.accounts) init =
      init ++ (l.map Keyring.accounts).flatten := by
  induction l generalizing init with
  | nil => simp
  | cons k t ih =>
    rw [List.foldl_cons, ih]
    simp [List.append_assoc]

theorem find?_append_cons {p : Keyring → Bool} (pre : List Keyring) (k : Keyring)
    (post : List Keyring) (hpre : ∀ x ∈ pre, p x = false) (hk : p k = true) :
    (pre ++ k :: post).find? p = some k := by
  induction pre with
  | nil => simp [List.find?_cons, hk]
  | cons a t ih =>
    have ha := hpre a (List.mem_cons_self a t)
    simp only [List.cons_append, List.find?_cons, ha]
    exact ih (fun x hx => hpre x (List.mem_cons_of_mem a hx))

theorem removeAddressFromOwner_append (pre : List Keyring) (k : Keyring)
    (post : List Keyring) (A : String)
    (hpre : ∀ x ∈ pre, managesAddress x A = false)
    (hk : managesAddress k A = true) :
    removeAddressFromOwner (pre ++ k :: post) A =
      pre ++ removeAccountFromKeyring k A :: post := by
  induction pre with
  | nil => simp [removeAddressFromOwner, hk]
  | cons a t ih =>
    have ha := hpre a (List.mem_cons_self a t)
    simp only [List.cons_append, removeAddressFromOwner, ha, Bool.false_eq_true,
      if_false, List.append_eq]
    rw [ih (fun x hx => hpre x (List.mem_cons_of_mem a hx))]

/-! ## Sample states used by the concrete witnesses -/

def sampleKeyring₁ : Keyring :=
  { type := simpleKeyPairType, accounts := ["0xb"], keyMaterial := 1 }

def sampleKeyring₂ : Keyring :=
  { type := simpleKeyPairType, accounts := ["0xc"], keyMaterial := 2 }

def sampleUnlocked : KCState :=
  { vault := none
    lock := LockState.Unlocked
    password := some "pw"
    keyrings := [sampleKeyring₁, sampleKeyring₂]
    appKeyCache := [] }

def lockedSample : KCState :=
  { vault := some (encrypt [] "pw" 0 0)
    lock := LockState.Locked
    password := none
    keyrings := []
    appKeyCache := [] }

def envFail : Env := { ioFails := true, seed := 0, salt := 0, iv := 0 }

def envOk : Env := { ioFails := false, seed := 0, salt := 0, iv := 0 }

/-! ## Claim theorems -/

/-- C1: on a controller whose vault exists (encrypted under password `P`) and
which is Locked with no live keyrings, `submitPassword` with any password `W`
other than `P` fails with `AuthenticationError`, leaves the state unchanged
and Locked, and `getAccounts` on the resulting state reflects zero
accounts. -/
theorem wrong_password_safety (P W : String) (sks : List SerializedKeyring)
    (salt iv : Nat) (s : KCState)
    (hv : s.vault = some (encrypt sks P salt iv))
    (hl : s.lock = LockState.Locked)
    (hk : s.keyrings = [])
    (hW : W ≠ P) :
    submitPassword s W = (s, Except.error Err.AuthenticationError) ∧
    (submitPassword s W).1.lock = LockState.Locked ∧
    getAccounts (submitPassword s W).1 = [] := by
  have hcond : ¬ kdf W salt = kdf P salt := fun hpair => hW (kdf_inj hpair)
  have hdec : decrypt (encrypt sks P salt iv) W =
      Except.error Err.AuthenticationError := by
    simp [decrypt, encrypt, hcond]
  have hmain : submitPassword s W = (s, Except.error Err.AuthenticationError) := by
    simp [submitPassword, hv, hdec]
  refine ⟨hmain, ?_, ?_⟩
  · rw [hmain]
    exact hl
  · rw [hmain]
    simp [getAccounts, hk]

theorem wrong_password_safety_witness :
    ("wr" : String) ≠ "pw" ∧
    submitPassword lockedSample "wr" =
      (lockedSample, Except.error Err.AuthenticationError) :=
  ⟨by decide,
    (wrong_password_safety "pw" "wr" [] 0 0 lockedSample rfl rfl rfl (by decide)).1⟩

/-- C3: VaultCodec round-trip — for every password and every serialized
keyring set, decrypting the encryption under the same password returns
exactly the original set. -/
theorem encrypt_decrypt_roundtrip (P : String) (K : List SerializedKeyring)
    (salt iv : Nat) :
    decrypt (encrypt K P salt iv) P = Except.ok K := by
  simp [decrypt, encrypt]

/-- C7: on an unlocked controller, `getAccounts` is exactly the concatenation
of the account lists of all keyrings, in keyring order, with each keyring's
own intra-keyring account order preserved. -/
theorem getAccounts_is_ordered_concat (s : KCState)
    (h : s.lock = LockState.Unlocked) :
    getAccounts s = (s.keyrings.map Keyring.accounts).flatten := by
  simpa [getAccounts] using foldl_append_accounts s.keyrings []

theorem getAccounts_is_ordered_concat_witness :
    sampleUnlocked.lock = LockState.Unlocked ∧
    getAccounts sampleUnlocked =
      (sampleUnlocked.keyrings.map Keyring.accounts).flatten :=
  ⟨rfl, getAccounts_is_ordered_concat sampleUnlocked rfl⟩

/-- C8: `setLocked` is total (no precondition, no failure case) and
afterwards the controller is Locked, with no live keyring instance, no
remembered password, no cached app-key material, and zero accounts
reachable from its state. -/
theorem setLocked_clears_all_secrets (s : KCState) :
    (setLocked s).lock = LockState.Locked ∧
    (setLocked s).keyrings = [] ∧
    (setLocked s).password = none ∧
    (setLocked s).appKeyCache = [] ∧
    getAccounts (setLocked s) = [] := by
  simp [setLocked, getAccounts]

/-- C2: when the PersistenceGateway write fails, every mutating operation
(create/restore vault, addNewKeyring, addNewAccount, removeAccount,
persistAllKeyrings) reports failure (never success) and leaves the
controller's in-memory state exactly equal to its state before the call. -/
theorem mutating_ops_atomic_on_io_failure (env : Env) (h : env.ioFails = true)
    (s : KCState) (p sp t a : String) (o i : Nat) :
    ((createNewVaultAndKeychain env s p).1 = s ∧
      (createNewVaultAndKeychain env s p).2 ≠ Except.ok ()) ∧
    ((createNewVaultAndRestore env s p sp).1 = s ∧
      (createNewVaultAndRestore env s p sp).2 ≠ Except.ok ()) ∧
    ((addNewKeyring env s t o).1 = s ∧
      (addNewKeyring env s t o).2 ≠ Except.ok ()) ∧
    ((addNewAccount env s i).1 = s ∧
      (addNewAccount env s i).2 ≠ Except.ok ()) ∧
    ((removeAccount env s a).1 = s ∧
      (removeAccount env s a).2 ≠ Except.ok ()) ∧
    ((persistAllKeyrings env s p).1 = s ∧
      (persistAllKeyrings env s p).2 ≠ Except.ok true) := by
  have hio : ∀ krs pw, tryPersist env krs pw = Except.error Err.IOError := by
    intro krs pw
    simp [tryPersist, h]
  refine ⟨?_, ?_, ?_, ?_, ?_, ?_⟩
  · simp [createNewVaultAndKeychain, hio]
  · by_cases hs : validSeedPhrase sp = true
    · simp [createNewVaultAndRestore, hs, hio]
    · simp [createNewVaultAndRestore, hs]
  · cases hk : newKeyringOfType t o with
    | none => simp [addNewKeyring, hk]
    | some kr =>
      cases hc : checkForDuplicate s t kr.accounts with
      | error e => simp [addNewKeyring, hk, hc]
      | ok v => simp [addNewKeyring, hk, hc, hio]
  · cases hk : s.keyrings[i]? with
    | none => simp [addNewAccount, hk]
    | some k => simp [addNewAccount, hk, hio]
  · cases hk : getKeyringForAccount s a with
    | none => simp [removeAccount, hk]
    | some k => simp [removeAccount, hk, hio]
  · simp [persistAllKeyrings, hio]

theorem mutating_ops_atomic_on_io_failure_witness :
    envFail.ioFails = true ∧
    (createNewVaultAndKeychain envFail lockedSample "pw").1 = lockedSample :=
  ⟨rfl,
    ((mutating_ops_atomic_on_io_failure envFail rfl lockedSample
      "pw" "sp" "t" "a" 0 0).1).1⟩

/-- C4: on an unlocked controller, removing the sole account of a keyring
removes that keyring from the keyring set entirely within the same
operation: the call succeeds, the owning keyring is gone, and every keyring
observable afterwards still has a non-empty account list. -/
theorem removeAccount_prunes_sole_keyring (env : Env) (s : KCState) (A : String)
    (pre post : List Keyring) (k : Keyring)
    (hu : s.lock = LockState.Unlocked)
    (hsplit : s.keyrings = pre ++ k :: post)
    (hsole : k.accounts = [A])
    (hpre : ∀ x ∈ pre, managesAddress x A = false)
    (hne : ∀ x ∈ s.keyrings, x.accounts ≠ [])
    (hio : env.ioFails = false) :
    (removeAccount env s A).2 = Except.ok () ∧
    (removeAccount env s A).1.keyrings = pre ++ post ∧
    ∀ x ∈ (removeAccount env s A).1.keyrings, x.accounts ≠ [] := by
  have hkA : managesAddress k A = true := by
    simp [managesAddress, hsole]
  have hfind : getKeyringForAccount s A = some k := by
    rw [getKeyringForAccount, hsplit]
    exact find?_append_cons pre k post hpre hkA
  have hremk : removeAccountFromKeyring k A = { k with accounts := [] } := by
    simp [removeAccountFromKeyring, hsole]
  have hown : removeAddressFromOwner s.keyrings A =
      pre ++ { k with accounts := ([] : List String) } :: post := by
    rw [hsplit, removeAddressFromOwner_append pre k post A hpre hkA, hremk]
  have hprenil : ∀ x ∈ pre, (!x.accounts.isEmpty) = true := by
    intro x hx
    have hx' := hne x (by rw [hsplit]; exact List.mem_append_left _ hx)
    simpa [List.isEmpty_iff] using hx'
  have hpostnil : ∀ x ∈ post, (!x.accounts.isEmpty) = true := by
    intro x hx
    have hx' := hne x (by
      rw [hsplit]
      exact List.mem_append_right _ (List.mem_cons_of_mem k hx))
    simpa [List.isEmpty_iff] using hx'
  have hempty : removeEmptyKeyrings (removeAddressFromOwner s.keyrings A) =
      pre ++ post := by
    rw [hown, removeEmptyKeyrings, List.filter_append]
    have h₁ : pre.filter (fun x => !x.accounts.isEmpty) = pre :=
      List.filter_eq_self.mpr hprenil
    have h₂ : ({ k with accounts := ([] : List String) } :: post).filter
        (fun x => !x.accounts.isEmpty) = post := by
      simp [List.filter_cons, List.filter_eq_self.mpr hpostnil]
    rw [h₁, h₂]
  have hpersist : tryPersist env (pre ++ post) (s.password.getD "") =
      Except.ok (encrypt ((pre ++ post).map serializeKeyring)
        (s.password.getD "") env.salt env.iv) := by
    simp [tryPersist, hio]
  refine ⟨?_, ?_, ?_⟩
  · simp [removeAccount, hfind, hempty, hpersist]
  · simp [removeAccount, hfind, hempty, hpersist]
  · intro x hx
    simp only [removeAccount, hfind, hempty, hpersist] at hx
    simp only [List.mem_append] at hx
    rcases hx with hxl | hxr
    · exact hne x (by rw [hsplit]; exact List.mem_append_left _ hxl)
    · exact hne x (by
        rw [hsplit]
        exact List.mem_append_right _ (List.mem_cons_of_mem k hxr))

theorem removeAccount_prunes_sole_keyring_witness :
    (∀ x ∈ sampleUnlocked.keyrings, x.accounts ≠ []) ∧
    (removeAccount envOk sampleUnlocked "0xc").2 = Except.ok () :=
  ⟨by decide,
    (removeAccount_prunes_sole_keyring envOk sampleUnlocked "0xc"
      [sampleKeyring₁] [] sampleKeyring₂ rfl rfl rfl
      (by decide) (by decide) rfl).1⟩

/-- C5: for the simple-key-pair type, `checkForDuplicate` fails with
`DuplicateAccountError` exactly when the first candidate address matches
(case-insensitively) some address already managed by any keyring; candidate
accounts after the first are never consulted; and on a duplicate the add
operation leaves the controller state — hence the managed account set —
unchanged. -/
theorem checkForDuplicate_first_account_case_insensitive (s : KCState)
    (a : String) (rest : List String) :
    (checkForDuplicate s simpleKeyPairType (a :: rest) =
        Except.error Err.DuplicateAccountError ↔
      lowerChars a ∈ (getAccounts s).map lowerChars) ∧
    (∀ rest', checkForDuplicate s simpleKeyPairType (a :: rest) =
        Except.error Err.DuplicateAccountError ↔
      checkForDuplicate s simpleKeyPairType (a :: rest') =
        Except.error Err.DuplicateAccountError) ∧
    (∀ env opts kr, newKeyringOfType simpleKeyPairType opts = some kr →
      checkForDuplicate s simpleKeyPairType kr.accounts =
        Except.error Err.DuplicateAccountError →
      (addNewKeyring env s simpleKeyPairType opts).1 = s ∧
      (addNewKeyring env s simpleKeyPairType opts).2 =
        Except.error Err.DuplicateAccountError) := by
  have hmem : ((getAccounts s).any (fun m => lowerChars m == lowerChars a) = true) ↔
      lowerChars a ∈ (getAccounts s).map lowerChars := by
    simp only [List.any_eq_true, beq_iff_eq, List.mem_map]
  refine ⟨?_, ?_, ?_⟩
  · by_cases hd : (getAccounts s).any (fun m => lowerChars m == lowerChars a) = true
    · simp [checkForDuplicate, hd, hmem.mp hd]
    · simp only [checkForDuplicate, List.head?_cons, if_pos rfl, hd, if_false]
      simp [← hmem, hd]
  · intro rest'
    by_cases hd : (getAccounts s).any (fun m => lowerChars m == lowerChars a) = true
    · simp [checkForDuplicate, hd]
    · simp [checkForDuplicate, hd]
  · intro env opts kr hkr hdup
    simp [addNewKeyring, hkr, hdup]

theorem checkForDuplicate_witness :
    checkForDuplicate sampleUnlocked simpleKeyPairType ["0xB", "0xz"] =
      Except.error Err.DuplicateAccountError :=
  (checkForDuplicate_first_account_case_insensitive sampleUnlocked
    "0xB" ["0xz"]).1.mpr (by decide)

/-- C6: for a managed address, `getAppKeyAddress` is deterministic — two
calls with the same origin on the same state return identical results — and
origin-separating: distinct origins yield distinct derived addresses. -/
theorem getAppKeyAddress_deterministic_and_origin_separated
    (s : KCState) (A O₁ O₂ : String)
    (h : (getKeyringForAccount s A).isSome = true) :
    getAppKeyAddress s A O₁ = getAppKeyAddress s A O₁ ∧
    (O₁ ≠ O₂ → getAppKeyAddress s A O₁ ≠ getAppKeyAddress s A O₂) := by
  refine ⟨rfl, ?_⟩
  intro hne heq
  obtain ⟨k, hk⟩ := Option.isSome_iff_exists.mp h
  simp only [getAppKeyAddress, hk, addressFor, deriveAppKey,
    Except.ok.injEq] at heq
  have h₃ := addrOfKey_inj heq
  have h₄ := (Nat.pair_eq_pair.mp h₃).2
  have h₅ := (Nat.pair_eq_pair.mp h₄).2
  exact hne (strEncode_inj h₅)

theorem getAppKeyAddress_det_sep_witness :
    (getKeyringForAccount sampleUnlocked "0xB").isSome = true ∧
    getAppKeyAddress sampleUnlocked "0xB" "https://a.example" ≠
      getAppKeyAddress sampleUnlocked "0xB" "https://b.example" :=
  ⟨by decide,
    (getAppKeyAddress_deterministic_and_origin_separated sampleUnlocked "0xB"
      "https://a.example" "https://b.example" (by decide)).2 (by decide)⟩

/-- C9: on an unlocked controller, `getKeyringForAccount` matches the given
address against managed addresses case-insensitively: whenever it returns a
keyring, that keyring is in the set and manages the address; and it resolves
to `none` (rather than failing) exactly when no keyring manages the
address. -/
theorem getKeyringForAccount_case_insensitive_lookup (s : KCState) (A : String)
    (h : s.lock = LockState.Unlocked) :
    (∀ k, getKeyringForAccount s A = some k →
      k ∈ s.keyrings ∧ lowerChars A ∈ k.accounts.map lowerChars) ∧
    (getKeyringForAccount s A = none ↔
      ∀ k ∈ s.keyrings, lowerChars A ∉ k.accounts.map lowerChars) := by
  have hman : ∀ k : Keyring,
      managesAddress k A = true ↔ lowerChars A ∈ k.accounts.map lowerChars := by
    intro k
    simp only [managesAddress, List.any_eq_true, beq_iff_eq, List.mem_map]
  constructor
  · intro k hk
    have hk' : s.keyrings.find? (fun x => managesAddress x A) = some k := hk
    have hpk := List.find?_some hk'
    exact ⟨List.mem_of_find?_eq_some hk', (hman k).mp hpk⟩
  · rw [getKeyringForAccount, List.find?_eq_none]
    constructor
    · intro hnone k hkmem
      have hb := hnone k hkmem
      rw [← hman k]
      simpa using hb
    · intro hnom k hkmem
      have hb := hnom k hkmem
      rw [← hman k] at hb
      simpa using hb

theorem getKeyringForAccount_lookup_witness :
    sampleUnlocked.lock = LockState.Unlocked ∧
    getKeyringForAccount sampleUnlocked "0xzz" = none :=
  ⟨rfl,
    (getKeyringForAccount_case_insensitive_lookup sampleUnlocked "0xzz"
      rfl).2.mpr (by decide)⟩

/-- C10 counterexample: `stripHexPrefix` strips exactly one leading `0x`, so
it is not idempotent — on the concrete input `"0x0x"` one application yields
`"0x"` and a second application yields `""`. -/
theorem stripHexPrefix_not_idempotent :
    stripHexPrefix ( stripHexPrefix "0x0x") ≠ stripHexPrefix "0x0x" := by
  decide

/-- C10 (amended): `stripHexPrefix` leaves unchanged every string that does
not begin with `0x`, and applying it twice equals applying it once for every
string whose once-stripped result does not begin with `0x` (one application
removes only a single `0x` occurrence). -/
theorem stripHexPrefix_conditionally_idempotent (s t : String)
    (hs : s.data.take 2 ≠ ['0', 'x'])
    (ht : ( stripHexPrefix t).data.take 2 ≠ ['0', 'x']) :
    stripHexPrefix s = s ∧
    stripHexPrefix ( stripHexPrefix t) = stripHexPrefix t := by
  have hid : ∀ u : String, u.data.take 2 ≠ ['0', 'x'] → stripHexPrefix u = u := by
    intro u hu
    simp [stripHexPrefix, hu]
  exact ⟨hid s hs, hid _ ht⟩

theorem stripHexPrefix_conditionally_idempotent_witness :
    ("abc" : String).data.take 2 ≠ ['0', 'x'] ∧
    ( stripHexPrefix "0xab").data.take 2 ≠ ['0', 'x'] ∧
    stripHexPrefix "abc" = "abc" ∧
    stripHexPrefix ( stripHexPrefix "0xab") = stripHexPrefix "0xab" := by
  have h := stripHexPrefix_conditionally_idempotent "abc" "0xab"
    (by decide) (by decide)
  exact ⟨by decide, by decide, h.1, h.2⟩

end KeyringController
